import Mathlib

/-!
Verification development for the mm-guest-audit audit pipeline.

The Go source is embedded shallowly:
* timestamps (Go `time.Time` in UTC) are epoch-millisecond integers (`Time := Int`);
  an optional timestamp (`*time.Time`) is `Option Time`;
* fallible client calls (`(T, error)`) are `Except String T`;
* the `MattermostClient` interface is a structure of pure functions;
* the unbounded pagination loop of `RunAudit` takes explicit fuel and the
  embedding additionally reports the number of guest-listing calls made
  (instrumentation; the Go loop makes exactly that many calls);
* `verbose` logging to stderr is ignored (it does not affect results);
* `IsInactive` reads the ambient clock in Go; the embedding threads the
  reference time `now` through `RunAudit`, matching `IsInactiveAt`.
-/

/-- Epoch milliseconds, UTC. -/
abbrev Time := Int

/-- Milliseconds in one day; Go `AddDate(0, 0, -n)` on a UTC instant is
subtraction of `n` of these. -/
def dayMillis : Int := 86400000

/-- Fields of `model.User` that the pipeline reads. -/
structure ModelUser where
  id : String
  username : String
  firstName : String
  lastName : String
  email : String
  createAt : Int
  lastActivityAt : Int
  deleteAt : Int
deriving DecidableEq, Repr

/-- Fields of `model.Team` that the pipeline reads. -/
structure ModelTeam where
  id : String
  displayName : String
deriving DecidableEq, Repr

/-- Fields of `model.Channel` that the pipeline reads. -/
structure ModelChannel where
  id : String
  displayName : String
deriving DecidableEq, Repr

/-- `TeamInfo`: a team a guest belongs to. -/
structure TeamInfo where
  id : String
  displayName : String
deriving DecidableEq, Repr

/-- `ChannelInfo`: a channel a guest can access. -/
structure ChannelInfo where
  teamName : String
  channelName : String
deriving DecidableEq, Repr

/-- `GuestRecord`: all audit information for a single guest user. -/
structure GuestRecord where
  username : String
  displayName : String
  email : String
  createdAt : Option Time
  lastLogin : Option Time
  lastPost : Option Time
  teams : List TeamInfo
  channels : List ChannelInfo
  active : Bool
  inactive : Bool
  error : String
deriving DecidableEq, Repr

/-- `AuditSummary`: aggregate counts for the audit. -/
structure AuditSummary where
  totalGuests : Nat
  activeGuests : Nat
  inactiveGuests : Nat
  deactivatedGuests : Nat
  failedLookups : Nat
deriving DecidableEq, Repr

/-- `AuditResult`: the complete audit output. -/
structure AuditResult where
  guests : List GuestRecord
  summary : AuditSummary
  inactiveDays : Int
deriving DecidableEq, Repr

/-- The `MattermostClient` interface: the five port operations the pipeline
invokes, as pure fallible functions. -/
structure MattermostClient where
  getTeamByName : String → Except String ModelTeam
  getGuestUsers : Nat → Nat → Except String (List ModelUser)
  getTeamsForUser : String → Except String (List ModelTeam)
  getChannelsForTeamForUser : String → String → Except String (List ModelChannel)
  getLastPostDateForUser : String → String → List String → Except String (Option Time)

/-- Exit code: successful execution. -/
def ExitSuccess : Int := 0

/-- Exit code: missing flags, invalid input, auth failure. -/
def ExitConfigError : Int := 1

/-- Exit code: connection failure, unexpected API response. -/
def ExitAPIError : Int := 2

/-- Exit code: operation completed but with some failures. -/
def ExitPartialFailure : Int := 3

/-- Exit code: unable to write output file. -/
def ExitOutputError : Int := 4

/-- `BuildDisplayName` combines first and last name into a display name. -/
def BuildDisplayName (firstName lastName : String) : String :=
  if firstName ≠ "" ∧ lastName ≠ "" then firstName ++ " " ++ lastName
  else if firstName ≠ "" then firstName
  else if lastName ≠ "" then lastName
  else ""

/-- `MillisToTime` converts a Unix millisecond timestamp to an optional time;
zero represents "no date". -/
def MillisToTime (millis : Int) : Option Time :=
  if millis = 0 then none else some millis

/-- `IsInactiveAt` decides whether a guest should be flagged inactive, given
an injected reference time. The cutoff is `now` minus `inactiveDays` days. -/
def IsInactiveAt (lastLogin : Option Time) (inactiveDays : Int) (now : Time) : Bool :=
  if inactiveDays ≤ 0 then false
  else
    match lastLogin with
    | none => true
    | some t => decide (t < now - inactiveDays * dayMillis)

/-- The team-filtering loop of `processGuest`: drop memberships whose id does
not match a non-empty `filterTeamID`, and convert the rest to `TeamInfo`. -/
def filterTeams (teams : List ModelTeam) (filterTeamID : String) : List TeamInfo :=
  teams.filterMap fun t =>
    if filterTeamID ≠ "" ∧ t.id ≠ filterTeamID then none
    else some { id := t.id, displayName := t.displayName }

/-- The channel-fetch loop of `processGuest`: for each in-scope team, fetch
the guest's channels; the first failure aborts with a wrapped error. -/
def fetchChannels (client : MattermostClient) (userId : String) :
    List TeamInfo → Except String (List ChannelInfo)
  | [] => Except.ok []
  | ti :: rest =>
    match client.getChannelsForTeamForUser ti.id userId with
    | Except.error e =>
        Except.error ("failed to get channels for team " ++ ti.displayName ++ ": " ++ e)
    | Except.ok chs =>
        match fetchChannels client userId rest with
        | Except.error e => Except.error e
        | Except.ok more =>
            Except.ok (chs.map (fun ch => { teamName := ti.displayName,
                                            channelName := ch.displayName }) ++ more)

/-- `processGuest` enriches a single guest user with team, channel and
activity data. `Except.ok none` is the Go `nil, nil` "skip this guest"
result; `Except.error` is a per-guest lookup failure. -/
def processGuest (client : MattermostClient) (u : ModelUser) (filterTeamID : String)
    (inactiveDays : Int) (now : Time) : Except String (Option GuestRecord) :=
  match client.getTeamsForUser u.id with
  | Except.error e => Except.error ("failed to get teams: " ++ e)
  | Except.ok teams =>
    let teamInfos := filterTeams teams filterTeamID
    if filterTeamID ≠ "" ∧ teamInfos.isEmpty then Except.ok none
    else
      match fetchChannels client u.id teamInfos with
      | Except.error e => Except.error e
      | Except.ok channels =>
        let teamIDs := teamInfos.map (fun ti => ti.id)
        let lastPost : Option Time :=
          if teamIDs.length > 0 then
            match client.getLastPostDateForUser u.id u.username teamIDs with
            | Except.error _ => none
            | Except.ok lp => lp
          else none
        let lastLogin := MillisToTime u.lastActivityAt
        Except.ok (some
          { username := u.username
            displayName := BuildDisplayName u.firstName u.lastName
            email := u.email
            createdAt := MillisToTime u.createAt
            lastLogin := lastLogin
            lastPost := lastPost
            teams := teamInfos
            channels := channels
            active := u.deleteAt == 0
            inactive := IsInactiveAt lastLogin inactiveDays now
            error := "" })

/-- The best-effort record `RunAudit` synthesizes when `processGuest` fails:
only identity, display name, email, creation timestamp and enabled flag are
populated; the Go struct literal zeroes every other field. -/
def stubRecord (u : ModelUser) (e : String) : GuestRecord :=
  { username := u.username
    displayName := BuildDisplayName u.firstName u.lastName
    email := u.email
    createdAt := MillisToTime u.createAt
    lastLogin := none
    lastPost := none
    teams := []
    channels := []
    active := u.deleteAt == 0
    inactive := false
    error := e }

/-- The per-guest loop of `RunAudit`: records in pagination order plus the
failed-lookups count. A `processGuest` failure appends the stub record and
counts one failure; a skip appends nothing. -/
def processAll (client : MattermostClient) (filterTeamID : String) (inactiveDays : Int)
    (now : Time) : List ModelUser → List GuestRecord × Nat
  | [] => ([], 0)
  | u :: rest =>
    let tail := processAll client filterTeamID inactiveDays now rest
    match processGuest client u filterTeamID inactiveDays now with
    | Except.error e => (stubRecord u e :: tail.1, tail.2 + 1)
    | Except.ok none => tail
    | Except.ok (some r) => (r :: tail.1, tail.2)

/-- One step of the summary loop of `RunAudit`: records with an error are
skipped; otherwise deactivation takes precedence, then inactivity. -/
def tallyRecord (s : AuditSummary) (g : GuestRecord) : AuditSummary :=
  if g.error ≠ "" then s
  else if !g.active then { s with deactivatedGuests := s.deactivatedGuests + 1 }
  else if g.inactive then { s with inactiveGuests := s.inactiveGuests + 1 }
  else { s with activeGuests := s.activeGuests + 1 }

/-- The summary computation of `RunAudit`: tally every record, then set the
total to the number of records kept. -/
def computeSummary (gs : List GuestRecord) (failed : Nat) : AuditSummary :=
  let s := gs.foldl tallyRecord
    { totalGuests := 0, activeGuests := 0, inactiveGuests := 0,
      deactivatedGuests := 0, failedLookups := failed }
  { s with totalGuests := gs.length }

/-- The pagination loop of `RunAudit`: fixed page size 200, increasing page
index, accumulate until a short page; a page failure aborts. Returns the
collected users (or the error) together with the number of guest-listing
calls made; `none` means the fuel ran out before the loop finished. -/
def fetchGuestPages (client : MattermostClient) :
    Nat → Nat → List ModelUser → Option (Except String (List ModelUser) × Nat)
  | 0, _, _ => none
  | fuel + 1, page, acc =>
    match client.getGuestUsers page 200 with
    | Except.error e => some (Except.error e, 1)
    | Except.ok users =>
      if users.length < 200 then some (Except.ok (acc ++ users), 1)
      else
        match fetchGuestPages client fuel (page + 1) (acc ++ users) with
        | none => none
        | some (r, n) => some (r, n + 1)

/-- The team-filter resolution block of `RunAudit`: `Except.error ()` is the
early `return nil, ExitConfigError`; otherwise the `filterTeamID` to use
(empty when no filter is set). -/
def resolveFilter (client : MattermostClient) (teamFilter : String) : Except Unit String :=
  if teamFilter ≠ "" then
    match client.getTeamByName teamFilter with
    | Except.error _ => Except.error ()
    | Except.ok team => Except.ok team.id
  else Except.ok ""

/-- `RunAudit`, instrumented: the result, the exit code, and the number of
guest-listing calls made. `none` means the pagination loop did not finish
within the fuel. -/
def RunAuditT (fuel : Nat) (client : MattermostClient) (teamFilter : String)
    (inactiveDays : Int) (now : Time) : Option (Option AuditResult × Int × Nat) :=
  match resolveFilter client teamFilter with
  | Except.error () => some (none, ExitConfigError, 0)
  | Except.ok filterTeamID =>
    match fetchGuestPages client fuel 0 [] with
    | none => none
    | some (Except.error _, n) => some (none, ExitAPIError, n)
    | some (Except.ok allGuests, n) =>
      let processed := processAll client filterTeamID inactiveDays now allGuests
      let exit := if processed.2 > 0 then ExitPartialFailure else ExitSuccess
      some (some { guests := processed.1
                   summary := computeSummary processed.1 processed.2
                   inactiveDays := inactiveDays }, exit, n)

/-- `RunAudit` performs the guest audit: the result (none when the run
aborted) and the exit code. -/
def RunAudit (fuel : Nat) (client : MattermostClient) (teamFilter : String)
    (inactiveDays : Int) (now : Time) : Option (Option AuditResult × Int) :=
  match RunAuditT fuel client teamFilter inactiveDays now with
  | none => none
  | some (r, exit, _) => some (r, exit)

/-! ### Helper definitions used by the theorems -/

/-- Whether an `Except` value is an error. -/
def exceptIsError {ε α : Type} (x : Except ε α) : Bool :=
  match x with
  | Except.error _ => true
  | Except.ok _ => false

/-- What `RunAudit` appends to the result for one guest: the stub on a
per-guest failure, nothing on a filter skip, the enriched record otherwise. -/
def recOutcome (client : MattermostClient) (filterTeamID : String) (inactiveDays : Int)
    (now : Time) (u : ModelUser) : Option GuestRecord :=
  match processGuest client u filterTeamID inactiveDays now with
  | Except.error e => some (stubRecord u e)
  | Except.ok o => o

/-- Whether `processGuest` fails for this guest. -/
def guestFails (client : MattermostClient) (filterTeamID : String) (inactiveDays : Int)
    (now : Time) (u : ModelUser) : Bool :=
  exceptIsError (processGuest client u filterTeamID inactiveDays now)

/-- Record classifiers matching the summary loop of `RunAudit`. -/
def isFailedRec (g : GuestRecord) : Bool := g.error ≠ ""

/-- Error-free and deactivated. -/
def isDeactRec (g : GuestRecord) : Bool := g.error = "" ∧ ¬g.active

/-- Error-free, enabled, flagged inactive. -/
def isInactRec (g : GuestRecord) : Bool := g.error = "" ∧ g.active ∧ g.inactive

/-- Error-free, enabled, not flagged inactive. -/
def isActRec (g : GuestRecord) : Bool := g.error = "" ∧ g.active ∧ ¬g.inactive

/-- Witness data: one healthy guest and one guest whose team fetch fails. -/
def userA : ModelUser :=
  { id := "u1", username := "jane", firstName := "Jane", lastName := "Doe",
    email := "jane@example.com", createAt := 5, lastActivityAt := 10, deleteAt := 0 }

/-- Witness data: deactivated guest whose team fetch fails. -/
def userB : ModelUser :=
  { id := "u2", username := "bob", firstName := "Bob", lastName := "",
    email := "bob@example.com", createAt := 6, lastActivityAt := 0, deleteAt := 7 }

/-- Witness client: a single page of two guests; the second guest's team
fetch fails; no team filter resolution available. -/
def wClient1 : MattermostClient :=
  { getTeamByName := fun _ => Except.error "nf"
    getGuestUsers := fun page _ => Except.ok (if page = 0 then [userA, userB] else [])
    getTeamsForUser := fun uid =>
      if uid = "u2" then Except.error "boom"
      else Except.ok [{ id := "t1", displayName := "Eng" }]
    getChannelsForTeamForUser := fun _ _ => Except.ok [{ id := "c1", displayName := "General" }]
    getLastPostDateForUser := fun _ _ _ => Except.ok (some 9) }

/-- The audit result the witness run computes. -/
def wRes1 : AuditResult :=
  { guests := [
      { username := "jane", displayName := "Jane Doe", email := "jane@example.com",
        createdAt := some 5, lastLogin := some 10, lastPost := some 9,
        teams := [{ id := "t1", displayName := "Eng" }],
        channels := [{ teamName := "Eng", channelName := "General" }],
        active := true, inactive := true, error := "" },
      { username := "bob", displayName := "Bob", email := "bob@example.com",
        createdAt := some 6, lastLogin := none, lastPost := none,
        teams := [], channels := [], active := false, inactive := false,
        error := "failed to get teams: boom" }]
    summary := { totalGuests := 2, activeGuests := 0, inactiveGuests := 1,
                 deactivatedGuests := 0, failedLookups := 1 }
    inactiveDays := 30 }

/-- Witness data: a guest belonging to two teams. -/
def userC : ModelUser :=
  { id := "u3", username := "carol", firstName := "Carol", lastName := "Jones",
    email := "carol@example.com", createAt := 8, lastActivityAt := 12, deleteAt := 0 }

/-- Witness client: every guest-listing page call fails. -/
def wClient5 : MattermostClient :=
  { getTeamByName := fun _ => Except.ok { id := "t1", displayName := "Eng" }
    getGuestUsers := fun _ _ => Except.error "connection refused"
    getTeamsForUser := fun _ => Except.ok []
    getChannelsForTeamForUser := fun _ _ => Except.ok []
    getLastPostDateForUser := fun _ _ _ => Except.ok none }

/-- Witness client: guests across two teams, with the Sales team resolvable
by name; all per-guest calls succeed. -/
def wClient6 : MattermostClient :=
  { getTeamByName := fun name =>
      if name = "Sales" then Except.ok { id := "t2", displayName := "Sales" }
      else Except.error "nf"
    getGuestUsers := fun page _ => Except.ok (if page = 0 then [userA, userC] else [])
    getTeamsForUser := fun uid =>
      if uid = "u3" then
        Except.ok [{ id := "t1", displayName := "Eng" }, { id := "t2", displayName := "Sales" }]
      else Except.ok [{ id := "t1", displayName := "Eng" }]
    getChannelsForTeamForUser := fun _ _ => Except.ok [{ id := "c3", displayName := "Partner" }]
    getLastPostDateForUser := fun _ _ _ => Except.ok none }

/-- Witness client: the last-post estimation call fails; everything else
succeeds. -/
def wClient8 : MattermostClient :=
  { getTeamByName := fun _ => Except.error "nf"
    getGuestUsers := fun page _ => Except.ok (if page = 0 then [userA] else [])
    getTeamsForUser := fun _ => Except.ok [{ id := "t1", displayName := "Eng" }]
    getChannelsForTeamForUser := fun _ _ => Except.ok [{ id := "c1", displayName := "General" }]
    getLastPostDateForUser := fun _ _ _ => Except.error "search failed" }

/-- Witness client: the Sales filter resolves, the first guest is only in
another team, and the second guest's team fetch fails. -/
def wClient9 : MattermostClient :=
  { getTeamByName := fun name =>
      if name = "Sales" then Except.ok { id := "t2", displayName := "Sales" }
      else Except.error "nf"
    getGuestUsers := fun page _ => Except.ok (if page = 0 then [userA, userB] else [])
    getTeamsForUser := fun uid =>
      if uid = "u2" then Except.error "boom"
      else Except.ok [{ id := "t1", displayName := "Eng" }]
    getChannelsForTeamForUser := fun _ _ => Except.ok []
    getLastPostDateForUser := fun _ _ _ => Except.ok none }

/-- Witness data: 250 distinct guests. -/
def wGuests250 : List ModelUser :=
  (List.range 250).map fun i =>
    { id := toString i, username := "guest" ++ toString i, firstName := "", lastName := "",
      email := "guest" ++ toString i ++ "@example.com", createAt := 1, lastActivityAt := 0,
      deleteAt := 0 }

/-- Witness client: pages of 200 over the 250 guests, like the mock client
of the repository tests. -/
def wClient7 : MattermostClient :=
  { getTeamByName := fun _ => Except.error "nf"
    getGuestUsers := fun page _ => Except.ok ((wGuests250.drop (page * 200)).take 200)
    getTeamsForUser := fun _ => Except.ok [{ id := "t1", displayName := "Eng" }]
    getChannelsForTeamForUser := fun _ _ => Except.ok [{ id := "c1", displayName := "General" }]
    getLastPostDateForUser := fun _ _ _ => Except.ok none }

/-- Destination `WriteOutput` ends up writing to. -/
inductive OutputDest where
  | stdout
  | file
deriving DecidableEq, Repr

/-- Effect model for `WriteOutput`: whether `os.Create(outputPath)` would
succeed, and whether writing the rendered report to each destination would
fail (the only failures `writeTable`, `writeCSV` and `writeJSON` can
encounter are writer failures). -/
structure WriteEnv where
  createOk : Bool
  stdoutErr : Option String
  fileErr : Option String
deriving DecidableEq, Repr

/-- The write error, if any, of the chosen destination. -/
def destWriteErr (env : WriteEnv) (d : OutputDest) : Option String :=
  match d with
  | OutputDest.stdout => env.stdoutErr
  | OutputDest.file => env.fileErr

/-- `WriteOutput` writes the audit result in the given format: with a
non-empty path whose creation succeeds it writes to the file; a creation
failure only prints a warning and falls back to stdout. The returned error
is exclusively the rendering/writing error of the destination actually
used. The result and format select what is rendered and are irrelevant to
the error behaviour modelled here. -/
def WriteOutput (result : AuditResult) (format outputPath : String) (env : WriteEnv) :
    Except String OutputDest :=
  let d := if outputPath ≠ "" then
             (if env.createOk then OutputDest.file else OutputDest.stdout)
           else OutputDest.stdout
  match destWriteErr env d with
  | some e => Except.error e
  | none => Except.ok d

/-- Whether a guest is a member of the team with the given id, according to
the client (false when the membership fetch fails). -/
def memberOf (client : MattermostClient) (u : ModelUser) (tid : String) : Bool :=
  match client.getTeamsForUser u.id with
  | Except.ok ts => ts.any (fun t => t.id == tid)
  | Except.error _ => false

/-! ### Structural lemmas about the pipeline -/

theorem processAll_eq (client : MattermostClient) (fid : String) (days : Int) (now : Time)
    (gs : List ModelUser) :
    processAll client fid days now gs =
      (gs.filterMap (recOutcome client fid days now),
       gs.countP (guestFails client fid days now)) := by
  induction gs with
  | nil => simp [processAll, List.countP_nil]
  | cons u rest ih =>
    cases hpg : processGuest client u fid days now with
    | error e =>
      simp [processAll, ih, List.filterMap_cons, List.countP_cons, recOutcome, guestFails,
        exceptIsError, hpg]
    | ok o =>
      cases o <;>
        simp [processAll, ih, List.filterMap_cons, List.countP_cons, recOutcome, guestFails,
          exceptIsError, hpg]

theorem append_ne_empty (a b : String) (h : a ≠ "") : a ++ b ≠ "" := by
  intro hc
  apply h
  have hd := congrArg String.data hc
  simp [String.data_append] at hd
  exact congrArg String.mk hd.1

theorem fetchChannels_error_ne_empty (client : MattermostClient) (userId : String)
    (tis : List TeamInfo) (e : String)
    (h : fetchChannels client userId tis = Except.error e) : e ≠ "" := by
  induction tis with
  | nil => simp [fetchChannels] at h
  | cons ti rest ih =>
    simp only [fetchChannels] at h
    cases hch : client.getChannelsForTeamForUser ti.id userId with
    | error e0 =>
      rw [hch] at h
      injection h with h
      subst h
      exact append_ne_empty _ e0
        (append_ne_empty _ ": "
          (append_ne_empty "failed to get channels for team " ti.displayName (by decide)))
    | ok chs =>
      rw [hch] at h
      cases hrec : fetchChannels client userId rest with
      | error e1 =>
        rw [hrec] at h
        injection h with h
        subst h
        exact ih hrec
      | ok more => rw [hrec] at h; simp at h

theorem processGuest_error_ne_empty (client : MattermostClient) (u : ModelUser)
    (fid : String) (days : Int) (now : Time) (e : String)
    (h : processGuest client u fid days now = Except.error e) : e ≠ "" := by
  cases ht : client.getTeamsForUser u.id with
  | error e0 =>
    simp only [processGuest, ht] at h
    injection h with h
    subst h
    exact append_ne_empty "failed to get teams: " e0 (by decide)
  | ok teams =>
    by_cases hskip : fid ≠ "" ∧ (filterTeams teams fid).isEmpty
    · simp only [ne_eq, List.isEmpty_iff] at hskip
      simp [processGuest, ht, hskip] at h
    · simp only [ne_eq, List.isEmpty_iff] at hskip
      cases hch : fetchChannels client u.id (filterTeams teams fid) with
      | error e1 =>
        simp only [processGuest, ht, hch, ne_eq, List.isEmpty_iff, if_neg hskip] at h
        injection h with h
        subst h
        exact fetchChannels_error_ne_empty client u.id _ _ hch
      | ok chans =>
        simp [processGuest, ht, hch, hskip] at h

theorem processGuest_ok_some_error (client : MattermostClient) (u : ModelUser)
    (fid : String) (days : Int) (now : Time) (r : GuestRecord)
    (h : processGuest client u fid days now = Except.ok (some r)) : r.error = "" := by
  cases ht : client.getTeamsForUser u.id with
  | error e0 => simp [processGuest, ht] at h
  | ok teams =>
    by_cases hskip : fid ≠ "" ∧ (filterTeams teams fid).isEmpty
    · simp only [ne_eq, List.isEmpty_iff] at hskip
      simp [processGuest, ht, hskip] at h
    · simp only [ne_eq, List.isEmpty_iff] at hskip
      cases hch : fetchChannels client u.id (filterTeams teams fid) with
      | error e1 => simp [processGuest, ht, hch, hskip] at h
      | ok chans =>
        simp only [processGuest, ht, hch, ne_eq, List.isEmpty_iff, if_neg hskip,
          Except.ok.injEq, Option.some.injEq] at h
        subst h
        rfl

theorem tallyRecord_fields (s : AuditSummary) (g : GuestRecord) :
    (tallyRecord s g).activeGuests = s.activeGuests + (if isActRec g then 1 else 0) ∧
      (tallyRecord s g).inactiveGuests = s.inactiveGuests + (if isInactRec g then 1 else 0) ∧
      (tallyRecord s g).deactivatedGuests =
        s.deactivatedGuests + (if isDeactRec g then 1 else 0) ∧
      (tallyRecord s g).failedLookups = s.failedLookups ∧
      (tallyRecord s g).totalGuests = s.totalGuests := by
  unfold tallyRecord isActRec isInactRec isDeactRec
  by_cases he : g.error = "" <;> cases hac : g.active <;> cases hin : g.inactive <;>
    simp [he, hac, hin]

theorem foldl_tally_counts (gs : List GuestRecord) (s : AuditSummary) :
    (gs.foldl tallyRecord s).activeGuests = s.activeGuests + gs.countP isActRec ∧
      (gs.foldl tallyRecord s).inactiveGuests = s.inactiveGuests + gs.countP isInactRec ∧
      (gs.foldl tallyRecord s).deactivatedGuests =
        s.deactivatedGuests + gs.countP isDeactRec ∧
      (gs.foldl tallyRecord s).failedLookups = s.failedLookups ∧
      (gs.foldl tallyRecord s).totalGuests = s.totalGuests := by
  induction gs generalizing s with
  | nil => simp
  | cons g rest ih =>
    obtain ⟨ta, ti, td, tf, tt⟩ := tallyRecord_fields s g
    obtain ⟨ra, ri, rd, rf, rt⟩ := ih (tallyRecord s g)
    simp only [List.foldl_cons, List.countP_cons, ra, ri, rd, rf, rt, ta, ti, td, tf, tt]
    exact ⟨by omega, by omega, by omega, trivial, trivial⟩

theorem computeSummary_fields (gs : List GuestRecord) (failed : Nat) :
    (computeSummary gs failed).totalGuests = gs.length ∧
      (computeSummary gs failed).activeGuests = gs.countP isActRec ∧
      (computeSummary gs failed).inactiveGuests = gs.countP isInactRec ∧
      (computeSummary gs failed).deactivatedGuests = gs.countP isDeactRec ∧
      (computeSummary gs failed).failedLookups = failed := by
  obtain ⟨ra, ri, rd, rf, rt⟩ := foldl_tally_counts gs
    { totalGuests := 0, activeGuests := 0, inactiveGuests := 0,
      deactivatedGuests := 0, failedLookups := failed }
  refine ⟨rfl, ?_, ?_, ?_, ?_⟩ <;> simp [computeSummary, ra, ri, rd, rf]

theorem length_count_partition (gs : List GuestRecord) :
    gs.length = gs.countP isFailedRec + gs.countP isDeactRec +
      gs.countP isInactRec + gs.countP isActRec := by
  induction gs with
  | nil => simp
  | cons g rest ih =>
    simp only [List.length_cons, List.countP_cons, ih]
    unfold isFailedRec isDeactRec isInactRec isActRec
    by_cases he : g.error = "" <;> cases hac : g.active <;> cases hin : g.inactive <;>
      simp [he, hac, hin] <;> omega

theorem countP_failed_filterMap (client : MattermostClient) (fid : String) (days : Int)
    (now : Time) (gs : List ModelUser) :
    (gs.filterMap (recOutcome client fid days now)).countP isFailedRec =
      gs.countP (guestFails client fid days now) := by
  induction gs with
  | nil => simp
  | cons u rest ih =>
    cases hpg : processGuest client u fid days now with
    | error e =>
      have hne : e ≠ "" := processGuest_error_ne_empty client u fid days now e hpg
      simp [recOutcome, hpg, List.filterMap_cons, List.countP_cons, isFailedRec, stubRecord,
        hne, ih, guestFails, exceptIsError]
    | ok o =>
      cases o with
      | none =>
        simp [recOutcome, hpg, List.filterMap_cons, List.countP_cons, ih, guestFails,
          exceptIsError]
      | some r =>
        have hr : r.error = "" := processGuest_ok_some_error client u fid days now r hpg
        simp [recOutcome, hpg, List.filterMap_cons, List.countP_cons, isFailedRec, hr, ih,
          guestFails, exceptIsError]

theorem runAuditT_success (fuel : Nat) (client : MattermostClient) (tf fid : String)
    (days : Int) (now : Time) (gs : List ModelUser) (n : Nat)
    (hres : resolveFilter client tf = Except.ok fid)
    (hpages : fetchGuestPages client fuel 0 [] = some (Except.ok gs, n)) :
    RunAuditT fuel client tf days now =
      some (some
        { guests := gs.filterMap (recOutcome client fid days now)
          summary := computeSummary (gs.filterMap (recOutcome client fid days now))
            (gs.countP (guestFails client fid days now))
          inactiveDays := days },
        (if 0 < gs.countP (guestFails client fid days now) then ExitPartialFailure
         else ExitSuccess), n) := by
  simp [RunAuditT, hres, hpages, processAll_eq]

theorem runAudit_some_inv (fuel : Nat) (client : MattermostClient) (tf : String)
    (days : Int) (now : Time) (res : AuditResult) (exit : Int)
    (h : RunAudit fuel client tf days now = some (some res, exit)) :
    ∃ fid gs n,
      resolveFilter client tf = Except.ok fid ∧
      fetchGuestPages client fuel 0 [] = some (Except.ok gs, n) ∧
      res.guests = gs.filterMap (recOutcome client fid days now) ∧
      res.summary = computeSummary res.guests (gs.countP (guestFails client fid days now)) ∧
      res.inactiveDays = days ∧
      exit = (if 0 < gs.countP (guestFails client fid days now) then ExitPartialFailure
              else ExitSuccess) := by
  unfold RunAudit RunAuditT at h
  cases hres : resolveFilter client tf with
  | error u => cases u; rw [hres] at h; simp [ExitConfigError] at h
  | ok fid =>
    rw [hres] at h
    cases hp : fetchGuestPages client fuel 0 [] with
    | none => rw [hp] at h; simp at h
    | some pr =>
      obtain ⟨pres, n⟩ := pr
      cases pres with
      | error e => rw [hp] at h; simp at h
      | ok gs =>
        rw [hp] at h
        simp only [processAll_eq, Option.some.injEq, Prod.mk.injEq] at h
        obtain ⟨hr, hexit⟩ := h
        subst hr
        exact ⟨fid, gs, n, rfl, rfl, rfl, rfl, rfl, hexit.symm⟩

/-! ### Claim theorems -/

/-- Claim C1: after every run of the audit pipeline that produces a result,
the summary satisfies total = active + inactive + deactivated + failed; every
record with a non-empty error description is counted only in total and
failed, and every error-free record is counted in total and in exactly one
of deactivated (enabled = false), inactive (enabled, inactive), or active
(enabled, not inactive), with deactivation taking precedence. -/
theorem summaryPartition (fuel : Nat) (client : MattermostClient) (tf : String)
    (days : Int) (now : Time) (res : AuditResult) (exit : Int)
    (h : RunAudit fuel client tf days now = some (some res, exit)) :
    res.summary.totalGuests =
        res.summary.activeGuests + res.summary.inactiveGuests +
          res.summary.deactivatedGuests + res.summary.failedLookups ∧
      res.summary.totalGuests = res.guests.length ∧
      res.summary.failedLookups = res.guests.countP isFailedRec ∧
      res.summary.deactivatedGuests = res.guests.countP isDeactRec ∧
      res.summary.inactiveGuests = res.guests.countP isInactRec ∧
      res.summary.activeGuests = res.guests.countP isActRec := by
  obtain ⟨fid, gs, n, hres, hp, hg, hs, hd, hex⟩ :=
    runAudit_some_inv fuel client tf days now res exit h
  obtain ⟨ct, ca, ci, cd, cf⟩ :=
    computeSummary_fields res.guests (gs.countP (guestFails client fid days now))
  have hfail : res.guests.countP isFailedRec = gs.countP (guestFails client fid days now) := by
    rw [hg]
    exact countP_failed_filterMap client fid days now gs
  rw [hs]
  refine ⟨?_, ct, ?_, cd, ci, ca⟩
  · have hpart := length_count_partition res.guests
    rw [ct, ca, ci, cd, cf, ← hfail]
    omega
  · rw [cf, hfail]

theorem summaryPartition_witness :
    wRes1.summary.totalGuests =
        wRes1.summary.activeGuests + wRes1.summary.inactiveGuests +
          wRes1.summary.deactivatedGuests + wRes1.summary.failedLookups ∧
      wRes1.summary.totalGuests = wRes1.guests.length ∧
      wRes1.summary.failedLookups = wRes1.guests.countP isFailedRec ∧
      wRes1.summary.deactivatedGuests = wRes1.guests.countP isDeactRec ∧
      wRes1.summary.inactiveGuests = wRes1.guests.countP isInactRec ∧
      wRes1.summary.activeGuests = wRes1.guests.countP isActRec :=
  summaryPartition 1 wClient1 "" 30 8640000000 wRes1 ExitPartialFailure (by decide)

/-- Claim C2: the inactivity classifier returns true iff the threshold is
positive and either the last login is absent or strictly earlier than now
minus the threshold in days; it returns false for all non-positive
thresholds, and false for a login exactly at the cutoff. -/
theorem inactivityClassifierSpec (ll : Option Time) (d : Int) (now : Time) :
    (IsInactiveAt ll d now = true ↔
        0 < d ∧ (ll = none ∨ ∃ t, ll = some t ∧ t < now - d * dayMillis)) ∧
      (d ≤ 0 → IsInactiveAt ll d now = false) ∧
      IsInactiveAt (some (now - d * dayMillis)) d now = false := by
  unfold IsInactiveAt
  refine ⟨?_, ?_, ?_⟩
  · cases ll with
    | none => by_cases hd : d ≤ 0 <;> simp [hd] <;> omega
    | some t => by_cases hd : d ≤ 0 <;> simp [hd] <;> omega
  · intro hd
    simp [hd]
  · by_cases hd : d ≤ 0 <;> simp [hd]

theorem inactivityClassifierSpec_witness : IsInactiveAt (some 5) 0 100 = false :=
  (inactivityClassifierSpec (some 5) 0 100).2.1 (by decide)

/-- Claim C4: with a non-empty team filter whose lookup by name fails, the
run returns no result and the configuration-error outcome, and makes zero
guest-listing calls. -/
theorem teamFilterResolutionFailure (fuel : Nat) (client : MattermostClient)
    (tf : String) (days : Int) (now : Time) (e : String)
    (htf : tf ≠ "") (hfail : client.getTeamByName tf = Except.error e) :
    RunAuditT fuel client tf days now = some (none, ExitConfigError, 0) ∧
      RunAudit fuel client tf days now = some (none, ExitConfigError) := by
  have hres : resolveFilter client tf = Except.error () := by
    simp [resolveFilter, htf, hfail]
  exact ⟨by simp [RunAuditT, hres], by simp [RunAudit, RunAuditT, hres]⟩

theorem teamFilterResolutionFailure_witness :
    RunAuditT 1 wClient1 "Sales" 30 0 = some (none, ExitConfigError, 0) ∧
      RunAudit 1 wClient1 "Sales" 30 0 = some (none, ExitConfigError) :=
  teamFilterResolutionFailure 1 wClient1 "Sales" 30 0 "nf" (by decide) rfl

theorem fetchGuestPages_error (client : MattermostClient) (p : Nat) (e : String)
    (hfull : ∀ q, q < p → ∃ us, client.getGuestUsers q 200 = Except.ok us ∧ us.length = 200)
    (herr : client.getGuestUsers p 200 = Except.error e) :
    ∀ fuel start acc, start ≤ p → p - start < fuel →
      fetchGuestPages client fuel start acc = some (Except.error e, p - start + 1) := by
  intro fuel
  induction fuel with
  | zero => intro start acc h1 h2; omega
  | succ f ih =>
    intro start acc hsp hfuel
    by_cases hstart : start = p
    · subst hstart
      simp [fetchGuestPages, herr]
    · obtain ⟨us, hus, hlen⟩ := hfull start (by omega)
      have hrec := ih (start + 1) (acc ++ us) (by omega) (by omega)
      simp only [fetchGuestPages, hus, hlen, Nat.lt_irrefl, if_false, hrec]
      simp only [Option.some.injEq, Prod.mk.injEq]
      exact ⟨trivial, by omega⟩

/-- Claim C5: if some guest-listing page call fails (every earlier page
returned a full page of 200), the entire run aborts with no result and the
transport-error outcome; partial progress is discarded. -/
theorem paginationFailureAborts (fuel : Nat) (client : MattermostClient) (tf fid : String)
    (days : Int) (now : Time) (p : Nat) (e : String)
    (hres : resolveFilter client tf = Except.ok fid)
    (hfull : ∀ q, q < p → ∃ us, client.getGuestUsers q 200 = Except.ok us ∧ us.length = 200)
    (herr : client.getGuestUsers p 200 = Except.error e)
    (hfuel : p < fuel) :
    RunAudit fuel client tf days now = some (none, ExitAPIError) := by
  have hp := fetchGuestPages_error client p e hfull herr fuel 0 [] (by omega) (by omega)
  simp [RunAudit, RunAuditT, hres, hp]

theorem paginationFailureAborts_witness :
    RunAudit 1 wClient5 "" 0 0 = some (none, ExitAPIError) :=
  paginationFailureAborts 1 wClient5 "" "" 0 0 0 "connection refused" rfl
    (fun q hq => absurd hq (by omega)) rfl (by decide)

/-- Claim C10: if creating the output file fails, `WriteOutput` falls back
to stdout and returns no error for the creation failure; a non-nil error
can only be a rendering/writing failure of the destination used. -/
theorem writeOutputFallback (result : AuditResult) (format outputPath : String)
    (env : WriteEnv) (hpath : outputPath ≠ "") (hcreate : env.createOk = false) :
    WriteOutput result format outputPath env = WriteOutput result format "" env ∧
      (∀ e, WriteOutput result format outputPath env = Except.error e →
        env.stdoutErr = some e) ∧
      (env.stdoutErr = none →
        WriteOutput result format outputPath env = Except.ok OutputDest.stdout) := by
  refine ⟨by simp [WriteOutput, hpath, hcreate], ?_, ?_⟩
  · intro e he
    simp only [WriteOutput, hpath, hcreate] at he
    simp only [ne_eq, hpath, not_false_iff, if_true, Bool.false_eq_true, if_false] at he
    cases hso : env.stdoutErr with
    | none => rw [destWriteErr] at he; simp [hso] at he
    | some e0 =>
      rw [destWriteErr] at he
      simp [hso] at he
      simp [he]
  · intro hso
    simp [WriteOutput, hpath, hcreate, destWriteErr, hso]

theorem writeOutputFallback_witness :
    WriteOutput wRes1 "csv" "report.csv"
        { createOk := false, stdoutErr := none, fileErr := some "disk full" } =
      WriteOutput wRes1 "csv" ""
        { createOk := false, stdoutErr := none, fileErr := some "disk full" } :=
  (writeOutputFallback wRes1 "csv" "report.csv"
    { createOk := false, stdoutErr := none, fileErr := some "disk full" }
    (by decide) rfl).1

theorem processGuest_teams_error (client : MattermostClient) (u : ModelUser)
    (fid : String) (days : Int) (now : Time) (e : String)
    (hteam : client.getTeamsForUser u.id = Except.error e) :
    processGuest client u fid days now = Except.error ("failed to get teams: " ++ e) := by
  simp [processGuest, hteam]

theorem filterMap_length_of_isSome {α β : Type} (f : α → Option β) (l : List α)
    (h : ∀ a ∈ l, (f a).isSome) : (l.filterMap f).length = l.length := by
  induction l with
  | nil => simp
  | cons a t ih =>
    have ha := h a (by simp)
    obtain ⟨b, hb⟩ := Option.isSome_iff_exists.mp ha
    simp [List.filterMap_cons, hb, ih (fun x hx => h x (by simp [hx]))]

/-- Claim C3: in a run without team filter where exactly one guest's team
fetch fails and every other guest processes cleanly, the result has one
record per paginated guest in order, the failed guest's record is the
best-effort stub with a non-empty error, the failed count is 1, and the
outcome is partial failure. -/
theorem singleTeamFetchFailure (fuel : Nat) (client : MattermostClient)
    (days : Int) (now : Time) (pre post : List ModelUser) (u : ModelUser) (n : Nat) (e : String)
    (hp : fetchGuestPages client fuel 0 [] = some (Except.ok (pre ++ u :: post), n))
    (hteam : client.getTeamsForUser u.id = Except.error e)
    (hok : ∀ v ∈ pre ++ post, ∃ r, processGuest client v "" days now = Except.ok (some r)) :
    ∃ res, RunAudit fuel client "" days now = some (some res, ExitPartialFailure) ∧
      res.guests = pre.filterMap (recOutcome client "" days now) ++
        stubRecord u ("failed to get teams: " ++ e) ::
          post.filterMap (recOutcome client "" days now) ∧
      res.guests.length = (pre ++ u :: post).length ∧
      res.summary.totalGuests = res.guests.length ∧
      res.summary.failedLookups = 1 ∧
      (stubRecord u ("failed to get teams: " ++ e)).teams = [] ∧
      (stubRecord u ("failed to get teams: " ++ e)).channels = [] ∧
      (stubRecord u ("failed to get teams: " ++ e)).inactive = false ∧
      (stubRecord u ("failed to get teams: " ++ e)).error ≠ "" := by
  have hpg := processGuest_teams_error client u "" days now e hteam
  have hresolve : resolveFilter client "" = Except.ok "" := rfl
  have hpre0 : pre.countP (guestFails client "" days now) = 0 := by
    rw [List.countP_eq_zero]
    intro v hv
    obtain ⟨r, hr⟩ := hok v (by simp [hv])
    simp [guestFails, exceptIsError, hr]
  have hpost0 : post.countP (guestFails client "" days now) = 0 := by
    rw [List.countP_eq_zero]
    intro v hv
    obtain ⟨r, hr⟩ := hok v (by simp [hv])
    simp [guestFails, exceptIsError, hr]
  have hcount : (pre ++ u :: post).countP (guestFails client "" days now) = 1 := by
    simp [List.countP_append, List.countP_cons, hpre0, hpost0, guestFails, exceptIsError, hpg]
  have hrun := runAuditT_success fuel client "" "" days now (pre ++ u :: post) n hresolve hp
  rw [hcount] at hrun
  have hguests :
      (pre ++ u :: post).filterMap (recOutcome client "" days now) =
        pre.filterMap (recOutcome client "" days now) ++
          stubRecord u ("failed to get teams: " ++ e) ::
            post.filterMap (recOutcome client "" days now) := by
    rw [List.filterMap_append, List.filterMap_cons]
    simp [recOutcome, hpg]
  have hlenpre : (pre.filterMap (recOutcome client "" days now)).length = pre.length :=
    filterMap_length_of_isSome _ _ (fun v hv => by
      obtain ⟨r, hr⟩ := hok v (by simp [hv])
      simp [recOutcome, hr])
  have hlenpost : (post.filterMap (recOutcome client "" days now)).length = post.length :=
    filterMap_length_of_isSome _ _ (fun v hv => by
      obtain ⟨r, hr⟩ := hok v (by simp [hv])
      simp [recOutcome, hr])
  refine ⟨{ guests := (pre ++ u :: post).filterMap (recOutcome client "" days now)
            summary := computeSummary
              ((pre ++ u :: post).filterMap (recOutcome client "" days now)) 1
            inactiveDays := days }, ?_, ?_, ?_, ?_, ?_, rfl, rfl, rfl, ?_⟩
  · rw [RunAudit, hrun]
    norm_num
  · exact hguests
  · show ((pre ++ u :: post).filterMap (recOutcome client "" days now)).length =
      (pre ++ u :: post).length
    rw [hguests]
    simp [hlenpre, hlenpost]
  · exact (computeSummary_fields _ _).1
  · exact (computeSummary_fields _ _).2.2.2.2
  · exact append_ne_empty "failed to get teams: " e (by decide)

theorem singleTeamFetchFailure_witness :
    ∃ res, RunAudit 1 wClient1 "" 30 8640000000 = some (some res, ExitPartialFailure) ∧
      res.guests = [userA].filterMap (recOutcome wClient1 "" 30 8640000000) ++
        stubRecord userB ("failed to get teams: " ++ "boom") ::
          ([] : List ModelUser).filterMap (recOutcome wClient1 "" 30 8640000000) ∧
      res.guests.length = ([userA] ++ userB :: []).length ∧
      res.summary.totalGuests = res.guests.length ∧
      res.summary.failedLookups = 1 ∧
      (stubRecord userB ("failed to get teams: " ++ "boom")).teams = [] ∧
      (stubRecord userB ("failed to get teams: " ++ "boom")).channels = [] ∧
      (stubRecord userB ("failed to get teams: " ++ "boom")).inactive = false ∧
      (stubRecord userB ("failed to get teams: " ++ "boom")).error ≠ "" :=
  singleTeamFetchFailure 1 wClient1 30 8640000000 [userA] [] userB 1 "boom" rfl rfl
    (by
      intro v hv
      simp at hv
      subst hv
      exact ⟨_, rfl⟩)

/-- Claim C9: with an active team filter, a guest whose team fetch fails is
never skipped by the filter: the stub record is appended to the result and
counted in total and failed, so a non-member of the filtered team can
appear in a filtered run. -/
theorem filteredRunKeepsFailedGuest (fuel : Nat) (client : MattermostClient) (tf : String)
    (days : Int) (now : Time) (fid : String) (gs : List ModelUser) (u : ModelUser)
    (n : Nat) (e : String)
    (htf : tf ≠ "") (hres : resolveFilter client tf = Except.ok fid)
    (hp : fetchGuestPages client fuel 0 [] = some (Except.ok gs, n))
    (hu : u ∈ gs)
    (hteam : client.getTeamsForUser u.id = Except.error e) :
    ∃ res, RunAudit fuel client tf days now = some (some res, ExitPartialFailure) ∧
      stubRecord u ("failed to get teams: " ++ e) ∈ res.guests ∧
      res.summary.totalGuests = res.guests.length ∧
      1 ≤ res.summary.failedLookups := by
  have hpg := processGuest_teams_error client u fid days now e hteam
  have hcount : 0 < gs.countP (guestFails client fid days now) :=
    List.countP_pos.mpr ⟨u, hu, by simp [guestFails, exceptIsError, hpg]⟩
  have hrun := runAuditT_success fuel client tf fid days now gs n hres hp
  rw [if_pos hcount] at hrun
  refine ⟨{ guests := gs.filterMap (recOutcome client fid days now)
            summary := computeSummary (gs.filterMap (recOutcome client fid days now))
              (gs.countP (guestFails client fid days now))
            inactiveDays := days }, ?_, ?_, ?_, ?_⟩
  · rw [RunAudit, hrun]
  · exact List.mem_filterMap.mpr ⟨u, hu, by simp [recOutcome, hpg]⟩
  · exact (computeSummary_fields _ _).1
  · have hf := (computeSummary_fields (gs.filterMap (recOutcome client fid days now))
      (gs.countP (guestFails client fid days now))).2.2.2.2
    rw [hf]
    omega

theorem filteredRunKeepsFailedGuest_witness :
    ∃ res, RunAudit 1 wClient9 "Sales" 30 8640000000 = some (some res, ExitPartialFailure) ∧
      stubRecord userB ("failed to get teams: " ++ "boom") ∈ res.guests ∧
      res.summary.totalGuests = res.guests.length ∧
      1 ≤ res.summary.failedLookups :=
  filteredRunKeepsFailedGuest 1 wClient9 "Sales" 30 8640000000 "t2" [userA, userB] userB
    1 "boom" (by decide) rfl rfl (by simp) rfl

theorem fetchGuestPages_step (client : MattermostClient) (fuel page : Nat)
    (acc us : List ModelUser)
    (h : client.getGuestUsers page 200 = Except.ok us) (hfull : us.length = 200) :
    fetchGuestPages client (fuel + 1) page acc =
      match fetchGuestPages client fuel (page + 1) (acc ++ us) with
      | none => none
      | some (r, n) => some (r, n + 1) := by
  simp only [fetchGuestPages, h, hfull, Nat.lt_irrefl, if_false]

theorem fetchGuestPages_last (client : MattermostClient) (fuel page : Nat)
    (acc us : List ModelUser)
    (h : client.getGuestUsers page 200 = Except.ok us) (hshort : us.length < 200) :
    fetchGuestPages client (fuel + 1) page acc = some (Except.ok (acc ++ us), 1) := by
  simp only [fetchGuestPages, h]
  rw [if_pos hshort]

theorem processGuest_no_filter_ne_none (client : MattermostClient) (u : ModelUser)
    (days : Int) (now : Time) :
    processGuest client u "" days now ≠ Except.ok none := by
  cases ht : client.getTeamsForUser u.id with
  | error e => simp [processGuest, ht]
  | ok teams =>
    cases hch : fetchChannels client u.id (filterTeams teams "") with
    | error e => simp [processGuest, ht, hch]
    | ok chans => simp [processGuest, ht, hch]

theorem recOutcome_isSome_no_filter (client : MattermostClient) (u : ModelUser)
    (days : Int) (now : Time) : (recOutcome client "" days now u).isSome := by
  unfold recOutcome
  cases hpg : processGuest client u "" days now with
  | error e => simp
  | ok o =>
    cases o with
    | some r => simp
    | none => exact absurd hpg (processGuest_no_filter_ne_none client u days now)

theorem fetchGuestPagesTwoPages (client : MattermostClient) (gs : List ModelUser) (fuel : Nat)
    (hlen : gs.length = 250)
    (hpage : ∀ p, client.getGuestUsers p 200 = Except.ok ((gs.drop (p * 200)).take 200))
    (hfuel : 2 ≤ fuel) :
    fetchGuestPages client fuel 0 [] = some (Except.ok gs, 2) := by
  obtain ⟨k, rfl⟩ : ∃ k, fuel = (k + 1) + 1 := ⟨fuel - 2, by omega⟩
  have hl0 : ((gs.drop (0 * 200)).take 200).length = 200 := by
    simp [List.length_take, hlen]
  have hl1 : ((gs.drop (1 * 200)).take 200).length = 50 := by
    simp [List.length_take, hlen]
  rw [fetchGuestPages_step client (k + 1) 0 [] ((gs.drop (0 * 200)).take 200) (hpage 0) hl0]
  rw [fetchGuestPages_last client k 1 ([] ++ (gs.drop (0 * 200)).take 200)
    ((gs.drop (1 * 200)).take 200) (hpage 1) (by omega)]
  have hall : ([] ++ (gs.drop (0 * 200)).take 200) ++ (gs.drop (1 * 200)).take 200 = gs := by
    have hd : (gs.drop 200).length ≤ 200 := by simp [hlen]
    simp only [List.nil_append, Nat.zero_mul, Nat.one_mul, List.drop_zero]
    rw [List.take_of_length_le hd, List.take_append_drop]
  rw [hall]

/-- Claim C7: the pipeline pages with fixed size 200 and increasing index
until a short page; with exactly 250 guests served in slices it collects
all 250 in exactly two page fetches, and the result preserves pagination
order (one record per guest, in order, with no filter). -/
theorem paginationCollectsAll250 (fuel : Nat) (client : MattermostClient)
    (gs : List ModelUser) (days : Int) (now : Time)
    (hlen : gs.length = 250)
    (hpage : ∀ p, client.getGuestUsers p 200 = Except.ok ((gs.drop (p * 200)).take 200))
    (hfuel : 2 ≤ fuel) :
    fetchGuestPages client fuel 0 [] = some (Except.ok gs, 2) ∧
      ∃ res exit, RunAuditT fuel client "" days now = some (some res, exit, 2) ∧
        res.guests = gs.filterMap (recOutcome client "" days now) ∧
        res.guests.length = 250 := by
  have hfetch := fetchGuestPagesTwoPages client gs fuel hlen hpage hfuel
  have hrun := runAuditT_success fuel client "" "" days now gs 2 rfl hfetch
  refine ⟨hfetch, _, _, hrun, rfl, ?_⟩
  show (gs.filterMap (recOutcome client "" days now)).length = 250
  rw [filterMap_length_of_isSome _ _
    (fun u _ => recOutcome_isSome_no_filter client u days now), hlen]

theorem paginationCollectsAll250_witness :
    fetchGuestPages wClient7 2 0 [] = some (Except.ok wGuests250, 2) ∧
      ∃ res exit, RunAuditT 2 wClient7 "" 0 0 = some (some res, exit, 2) ∧
        res.guests = wGuests250.filterMap (recOutcome wClient7 "" 0 0) ∧
        res.guests.length = 250 :=
  paginationCollectsAll250 2 wClient7 wGuests250 0 0 (by simp [wGuests250])
    (fun p => rfl) (by decide)

theorem fetchChannels_ok (client : MattermostClient) (userId : String) (tis : List TeamInfo)
    (h : ∀ ti ∈ tis, ∃ cs, client.getChannelsForTeamForUser ti.id userId = Except.ok cs) :
    ∃ chans, fetchChannels client userId tis = Except.ok chans := by
  induction tis with
  | nil => exact ⟨[], rfl⟩
  | cons ti rest ih =>
    obtain ⟨cs, hcs⟩ := h ti (by simp)
    obtain ⟨more, hmore⟩ := ih (fun x hx => h x (by simp [hx]))
    exact ⟨cs.map (fun ch => { teamName := ti.displayName, channelName := ch.displayName })
      ++ more, by simp [fetchChannels, hcs, hmore]⟩

theorem filterTeams_eq_nil_iff (ts : List ModelTeam) (fid : String) (hfid : fid ≠ "") :
    filterTeams ts fid = [] ↔ ∀ t ∈ ts, t.id ≠ fid := by
  induction ts with
  | nil => simp [filterTeams]
  | cons t rest ih =>
    simp only [filterTeams, List.filterMap_cons] at ih ⊢
    by_cases hid : t.id = fid
    · simp [hid, hfid]
    · simp [hid, hfid, ih]

theorem mem_filterTeams_id (ts : List ModelTeam) (fid : String) (ti : TeamInfo)
    (hfid : fid ≠ "") (h : ti ∈ filterTeams ts fid) : ti.id = fid := by
  simp only [filterTeams, List.mem_filterMap] at h
  obtain ⟨t, ht, heq⟩ := h
  split at heq
  next hc => simp at heq
  next hc =>
    push_neg at hc
    have hid := hc hfid
    simp only [Option.some.injEq] at heq
    subst heq
    exact hid

theorem processGuest_ok_some_teams (client : MattermostClient) (u : ModelUser)
    (fid : String) (days : Int) (now : Time) (ts : List ModelTeam) (r : GuestRecord)
    (hts : client.getTeamsForUser u.id = Except.ok ts)
    (h : processGuest client u fid days now = Except.ok (some r)) :
    r.teams = filterTeams ts fid ∧ ¬(fid ≠ "" ∧ filterTeams ts fid = []) := by
  by_cases hskip : fid ≠ "" ∧ (filterTeams ts fid).isEmpty
  · simp only [ne_eq, List.isEmpty_iff] at hskip
    simp [processGuest, hts, hskip] at h
  · simp only [ne_eq, List.isEmpty_iff] at hskip
    cases hch : fetchChannels client u.id (filterTeams ts fid) with
    | error e1 => simp [processGuest, hts, hch, hskip] at h
    | ok chans =>
      simp only [processGuest, hts, hch, ne_eq, List.isEmpty_iff, if_neg hskip,
        Except.ok.injEq, Option.some.injEq] at h
      subst h
      exact ⟨rfl, by simpa using hskip⟩

theorem processGuest_not_error (client : MattermostClient) (u : ModelUser)
    (fid : String) (days : Int) (now : Time) (ts : List ModelTeam)
    (hts : client.getTeamsForUser u.id = Except.ok ts)
    (hchans : ∀ tid, ∃ cs, client.getChannelsForTeamForUser tid u.id = Except.ok cs) :
    ∀ e, processGuest client u fid days now ≠ Except.error e := by
  intro e h
  obtain ⟨chans, hch⟩ :=
    fetchChannels_ok client u.id (filterTeams ts fid) (fun ti _ => hchans ti.id)
  by_cases hskip : fid ≠ "" ∧ (filterTeams ts fid).isEmpty
  · simp only [ne_eq, List.isEmpty_iff] at hskip
    simp [processGuest, hts, hskip] at h
  · simp only [ne_eq, List.isEmpty_iff] at hskip
    simp [processGuest, hts, hch, hskip] at h

theorem processGuest_skip_iff (client : MattermostClient) (u : ModelUser)
    (fid : String) (days : Int) (now : Time) (ts : List ModelTeam)
    (hfid : fid ≠ "")
    (hts : client.getTeamsForUser u.id = Except.ok ts)
    (hchans : ∀ tid, ∃ cs, client.getChannelsForTeamForUser tid u.id = Except.ok cs) :
    processGuest client u fid days now = Except.ok none ↔ filterTeams ts fid = [] := by
  obtain ⟨chans, hch⟩ :=
    fetchChannels_ok client u.id (filterTeams ts fid) (fun ti _ => hchans ti.id)
  by_cases hskip : (filterTeams ts fid).isEmpty
  · simp only [List.isEmpty_iff] at hskip
    constructor
    · intro _
      exact hskip
    · intro _
      simp [processGuest, hts, hskip, hfid]
  · simp only [List.isEmpty_iff] at hskip
    constructor
    · intro h
      have hns : ¬(¬fid = "" ∧ filterTeams ts fid = []) := fun hc => hskip hc.2
      simp [processGuest, hts, hch, hns] at h
    · intro hcon
      exact absurd hcon hskip

theorem filterMap_length_eq_filter_length {α β : Type} (f : α → Option β) (p : α → Bool)
    (l : List α) (h : ∀ a ∈ l, ((f a).isSome ↔ p a = true)) :
    (l.filterMap f).length = (l.filter p).length := by
  induction l with
  | nil => simp
  | cons a t ih =>
    have ha := h a (by simp)
    have iht := ih (fun x hx => h x (by simp [hx]))
    cases hf : f a with
    | none =>
      have hp : p a = false := by
        cases hpa : p a
        · rfl
        · exact absurd (ha.mpr hpa) (by simp [hf])
      simp [List.filterMap_cons, hf, List.filter_cons, hp, iht]
    | some b =>
      have hp : p a = true := ha.mp (by simp [hf])
      simp [List.filterMap_cons, hf, List.filter_cons, hp, iht]

/-- Claim C6: with an active team filter that resolves, and all per-guest
fetches succeeding, every guest's memberships are filtered to the resolved
team, guests with no matching membership are skipped entirely (no record,
no bucket), and the result contains exactly the guests with a matching
membership, each record carrying only matching teams. -/
theorem teamFilterScopes (fuel : Nat) (client : MattermostClient) (tf : String)
    (days : Int) (now : Time) (team : ModelTeam) (gs : List ModelUser) (n : Nat)
    (htf : tf ≠ "") (hteam : client.getTeamByName tf = Except.ok team) (hid : team.id ≠ "")
    (hp : fetchGuestPages client fuel 0 [] = some (Except.ok gs, n))
    (hteams : ∀ u ∈ gs, ∃ ts, client.getTeamsForUser u.id = Except.ok ts)
    (hchans : ∀ tid uid, ∃ cs, client.getChannelsForTeamForUser tid uid = Except.ok cs) :
    ∃ res exit, RunAudit fuel client tf days now = some (some res, exit) ∧
      res.guests = gs.filterMap (recOutcome client team.id days now) ∧
      (∀ u ∈ gs, (recOutcome client team.id days now u = none ↔
        memberOf client u team.id = false)) ∧
      (∀ r ∈ res.guests, r.teams ≠ [] ∧ ∀ ti ∈ r.teams, ti.id = team.id) ∧
      res.guests.length = (gs.filter (fun u => memberOf client u team.id)).length := by
  have hres : resolveFilter client tf = Except.ok team.id := by
    simp [resolveFilter, htf, hteam]
  have hper : ∀ u ∈ gs,
      ((recOutcome client team.id days now u).isSome ↔ memberOf client u team.id = true) ∧
      (recOutcome client team.id days now u = none ↔ memberOf client u team.id = false) := by
    intro u hu
    obtain ⟨ts, hts⟩ := hteams u hu
    have hchu : ∀ tid, ∃ cs, client.getChannelsForTeamForUser tid u.id = Except.ok cs :=
      fun tid => hchans tid u.id
    have hskip := processGuest_skip_iff client u team.id days now ts hid hts hchu
    have hmem : memberOf client u team.id = ts.any (fun t => t.id == team.id) := by
      simp [memberOf, hts]
    have hnil : filterTeams ts team.id = [] ↔ memberOf client u team.id = false := by
      rw [filterTeams_eq_nil_iff ts team.id hid, hmem]
      constructor
      · intro h
        simp only [List.any_eq_false]
        intro t ht
        simpa using h t ht
      · intro h t ht
        have := List.any_eq_false.mp h t ht
        simpa using this
    unfold recOutcome
    cases hpg : processGuest client u team.id days now with
    | error e => exact absurd hpg (processGuest_not_error client u team.id days now ts hts hchu e)
    | ok o =>
      cases o with
      | none =>
        have hm : memberOf client u team.id = false := hnil.mp (hskip.mp hpg)
        simp [hm]
      | some r =>
        have hnon : ¬filterTeams ts team.id = [] := by
          intro hc
          have hcontra := hskip.mpr hc
          rw [hpg] at hcontra
          simp at hcontra
        have hm : memberOf client u team.id = true := by
          cases hmo : memberOf client u team.id
          · exact absurd (hnil.mpr hmo) hnon
          · rfl
        simp [hm]
  have hrun := runAuditT_success fuel client tf team.id days now gs n hres hp
  refine ⟨{ guests := gs.filterMap (recOutcome client team.id days now)
            summary := computeSummary (gs.filterMap (recOutcome client team.id days now))
              (gs.countP (guestFails client team.id days now))
            inactiveDays := days },
    (if 0 < gs.countP (guestFails client team.id days now) then ExitPartialFailure
     else ExitSuccess), ?_, rfl, ?_, ?_, ?_⟩
  · rw [RunAudit, hrun]
  · exact fun u hu => (hper u hu).2
  · intro r hr
    obtain ⟨u, hu, hru⟩ := List.mem_filterMap.mp hr
    obtain ⟨ts, hts⟩ := hteams u hu
    have hchu : ∀ tid, ∃ cs, client.getChannelsForTeamForUser tid u.id = Except.ok cs :=
      fun tid => hchans tid u.id
    unfold recOutcome at hru
    cases hpg : processGuest client u team.id days now with
    | error e => exact absurd hpg (processGuest_not_error client u team.id days now ts hts hchu e)
    | ok o =>
      rw [hpg] at hru
      subst hru
      obtain ⟨hteamsEq, hns⟩ :=
        processGuest_ok_some_teams client u team.id days now ts r hts hpg
      constructor
      · rw [hteamsEq]
        intro hc
        exact hns ⟨hid, hc⟩
      · intro ti hti
        rw [hteamsEq] at hti
        exact mem_filterTeams_id ts team.id ti hid hti
  · show (gs.filterMap (recOutcome client team.id days now)).length =
      (gs.filter (fun u => memberOf client u team.id)).length
    exact filterMap_length_eq_filter_length _ _ gs (fun u hu => (hper u hu).1)

theorem teamFilterScopes_witness :
    ∃ res exit, RunAudit 1 wClient6 "Sales" 30 8640000000 = some (some res, exit) ∧
      res.guests = [userA, userC].filterMap (recOutcome wClient6 "t2" 30 8640000000) ∧
      (∀ u ∈ [userA, userC], (recOutcome wClient6 "t2" 30 8640000000 u = none ↔
        memberOf wClient6 u "t2" = false)) ∧
      (∀ r ∈ res.guests, r.teams ≠ [] ∧ ∀ ti ∈ r.teams, ti.id = "t2") ∧
      res.guests.length = ([userA, userC].filter (fun u => memberOf wClient6 u "t2")).length :=
  teamFilterScopes 1 wClient6 "Sales" 30 8640000000 { id := "t2", displayName := "Sales" }
    [userA, userC] 1 (by decide) rfl (by decide) rfl
    (by
      intro u hu
      simp only [List.mem_cons, List.not_mem_nil, or_false] at hu
      rcases hu with h | h <;> subst h <;> exact ⟨_, rfl⟩)
    (fun tid uid => ⟨_, rfl⟩)

theorem fetchChannels_client_eq (c1 c2 : MattermostClient) (userId : String)
    (h : c1.getChannelsForTeamForUser = c2.getChannelsForTeamForUser) :
    ∀ tis, fetchChannels c1 userId tis = fetchChannels c2 userId tis := by
  intro tis
  induction tis with
  | nil => rfl
  | cons ti rest ih => simp [fetchChannels, h, ih]

/-- Claim C8: a failing last-post estimation is non-fatal: the guest's
record is completed with an absent last-post timestamp and no error, the
guest contributes no failed lookup, and the run behaves exactly as if the
last-post call had returned no date. -/
theorem lastPostFailureNonFatal (client : MattermostClient) (u : ModelUser) (fid : String)
    (days : Int) (now : Time) (ts : List ModelTeam) (chans : List ChannelInfo) (e : String)
    (hts : client.getTeamsForUser u.id = Except.ok ts)
    (hnonempty : filterTeams ts fid ≠ [])
    (hch : fetchChannels client u.id (filterTeams ts fid) = Except.ok chans)
    (hlp : client.getLastPostDateForUser u.id u.username
      ((filterTeams ts fid).map (fun ti => ti.id)) = Except.error e) :
    ∃ r, processGuest client u fid days now = Except.ok (some r) ∧
      r.lastPost = none ∧ r.error = "" ∧
      processAll client fid days now [u] = ([r], 0) ∧
      processGuest client u fid days now =
        processGuest { client with getLastPostDateForUser := fun _ _ _ => Except.ok none }
          u fid days now := by
  have hns : ¬(¬fid = "" ∧ filterTeams ts fid = []) := fun hc => hnonempty hc.2
  have hlen : 0 < (filterTeams ts fid).length := List.length_pos.mpr hnonempty
  have hpg : processGuest client u fid days now = Except.ok (some
      { username := u.username
        displayName := BuildDisplayName u.firstName u.lastName
        email := u.email
        createdAt := MillisToTime u.createAt
        lastLogin := MillisToTime u.lastActivityAt
        lastPost := none
        teams := filterTeams ts fid
        channels := chans
        active := u.deleteAt == 0
        inactive := IsInactiveAt (MillisToTime u.lastActivityAt) days now
        error := "" }) := by
    simp [processGuest, hts, hch, hns, hlp, hlen]
  have hch2 : fetchChannels
      { client with getLastPostDateForUser := fun _ _ _ => Except.ok none } u.id
      (filterTeams ts fid) = Except.ok chans :=
    (fetchChannels_client_eq
      { client with getLastPostDateForUser := fun _ _ _ => Except.ok none }
      client u.id rfl (filterTeams ts fid)).trans hch
  refine ⟨_, hpg, rfl, rfl, by simp [processAll, hpg], ?_⟩
  rw [hpg]
  have hpg2 : processGuest
      { client with getLastPostDateForUser := fun _ _ _ => Except.ok none } u fid days now =
      Except.ok (some
      { username := u.username
        displayName := BuildDisplayName u.firstName u.lastName
        email := u.email
        createdAt := MillisToTime u.createAt
        lastLogin := MillisToTime u.lastActivityAt
        lastPost := none
        teams := filterTeams ts fid
        channels := chans
        active := u.deleteAt == 0
        inactive := IsInactiveAt (MillisToTime u.lastActivityAt) days now
        error := "" }) := by
    simp [processGuest, hts, hch2, hns, hlen]
  rw [hpg2]

theorem lastPostFailureNonFatal_witness :
    ∃ r, processGuest wClient8 userA "" 30 8640000000 = Except.ok (some r) ∧
      r.lastPost = none ∧ r.error = "" ∧
      processAll wClient8 "" 30 8640000000 [userA] = ([r], 0) ∧
      processGuest wClient8 userA "" 30 8640000000 =
        processGuest { wClient8 with getLastPostDateForUser := fun _ _ _ => Except.ok none }
          userA "" 30 8640000000 :=
  lastPostFailureNonFatal wClient8 userA "" 30 8640000000
    [{ id := "t1", displayName := "Eng" }]
    [{ teamName := "Eng", channelName := "General" }] "search failed"
    rfl (by decide) rfl rfl
